import Mathlib

/-!
Shallow embedding of the pagination core (pagination.go) of the
gophercloud repository: ResponseSnapshot construction, the three Page
variants (Single, Linked, Marker), the Pager iteration driver, and the
four Pager constructors.

Conventions of the embedding:
* Go errors are modelled as strings; a fallible Go call returning
  (value, error) is modelled as Except Err value (Go callers always check
  the error first, so the value returned alongside a non-nil error is
  unobservable).
* Go interface-typed JSON bodies (the result of json.Unmarshal into an
  empty interface, or raw bytes) are modelled by the inductive GoVal.
  A nil Go interface and a decoded JSON null are the same Go value (nil),
  hence the single constructor GoVal.nil.
* Machine integers are modelled as Int (page counts) and Nat (bytes).
* Strings are treated at the character level; for the ASCII data the
  claims exercise, one character is one byte, matching the byte-level
  Go string operations.
-/

/-- Errors are opaque values in Go; the embedding models them as strings. -/
abbrev Err := String

/-- ErrPageNotAvailable from pagination.go line 16. -/
def ErrPageNotAvailable : Err := "The requested Collection page does not exist."

/-- GoVal models a Go interface value as produced by json.Unmarshal into
an empty interface (nil, bool, number, string, array, map) or the raw
byte slice stored when the response was not JSON. -/
inductive GoVal where
  | nil
  | bool (b : Bool)
  | num (n : Int)
  | str (s : String)
  | arr (elems : List GoVal)
  | map (fields : List (String × GoVal))
  | bytes (b : List Nat)

/-- URL models the components of a net/url URL value that the pagination
core reads or writes: scheme, host, path, raw query and fragment. -/
structure URL where
  scheme : String
  host : String
  path : String
  rawQuery : String
  fragment : String
deriving DecidableEq, Repr

/-- Zero value of the URL structure. -/
def URL.empty : URL := ⟨"", "", "", "", ""⟩

/-- Rendering of a URL back to a string, as url.URL.String does for URLs
of this shape: scheme, host, path, then the query introduced by a
question mark when non-empty, then the fragment introduced by a hash
when non-empty. -/
def URL.render (u : URL) : String :=
  u.scheme ++ "://" ++ u.host ++ u.path
    ++ (if u.rawQuery = "" then "" else "?" ++ u.rawQuery)
    ++ (if u.fragment = "" then "" else "#" ++ u.fragment)

/-- Hexadecimal digit value of a character, if it is one
(net/url ishex and unhex). -/
def hexVal (c : Char) : Option Nat :=
  if '0' ≤ c ∧ c ≤ '9' then some (c.toNat - '0'.toNat)
  else if 'a' ≤ c ∧ c ≤ 'f' then some (c.toNat - 'a'.toNat + 10)
  else if 'A' ≤ c ∧ c ≤ 'F' then some (c.toNat - 'A'.toNat + 10)
  else none

/-- Uppercase hexadecimal digit for a value below 16 (net/url upperhex). -/
def hexDigit (n : Nat) : Char :=
  if n < 10 then Char.ofNat ('0'.toNat + n)
  else Char.ofNat ('A'.toNat + (n - 10))

/-- Unescaping of a query component, as net/url QueryUnescape: plus
becomes space, a percent followed by two hex digits becomes that byte,
a malformed percent escape is an error. Bytes are read back as
characters (the data the claims exercise is ASCII, where the two
coincide). -/
def queryUnescape : List Char → Option (List Char)
  | [] => some []
  | '%' :: a :: b :: rest => do
      let ha ← hexVal a
      let hb ← hexVal b
      let tail ← queryUnescape rest
      pure (Char.ofNat (ha * 16 + hb) :: tail)
  | '%' :: _ => none
  | '+' :: rest => do pure (' ' :: (← queryUnescape rest))
  | c :: rest => do pure (c :: (← queryUnescape rest))

/-- Characters net/url leaves unescaped in a query component:
alphanumerics and the four unreserved marks. -/
def queryUnreserved (c : Char) : Bool :=
  c.isAlphanum || c = '-' || c = '_' || c = '.' || c = '~'

/-- UTF-8 bytes of one character. -/
def charUTF8 (c : Char) : List Nat :=
  let n := c.toNat
  if n < 0x80 then [n]
  else if n < 0x800 then [0xC0 + n / 64, 0x80 + n % 64]
  else if n < 0x10000 then
    [0xE0 + n / 4096, 0x80 + n / 64 % 64, 0x80 + n % 64]
  else
    [0xF0 + n / 262144, 0x80 + n / 4096 % 64, 0x80 + n / 64 % 64, 0x80 + n % 64]

/-- Escaping of one character for a query component, as net/url
QueryEscape: space becomes plus, unreserved characters stay, anything
else becomes percent-escaped UTF-8 bytes with uppercase hex. -/
def queryEscapeChar (c : Char) : List Char :=
  if c = ' ' then ['+']
  else if queryUnreserved c then [c]
  else (charUTF8 c).flatMap fun b => ['%', hexDigit (b / 16), hexDigit (b % 16)]

/-- QueryEscape of a whole string. -/
def queryEscape (s : String) : String :=
  String.mk (s.data.flatMap queryEscapeChar)

/-- Values models url.Values: a mapping from key to the ordered list of
values for that key. The embedding keeps it as an association list with
at most one entry per key; entry order is irrelevant because Encode
sorts by key. -/
abbrev Values := List (String × List String)

/-- Values retrieval of all values stored under one key. -/
def valuesGetAll (q : Values) (key : String) : List String :=
  match q.find? (fun kv => kv.1 = key) with
  | some kv => kv.2
  | none => []

/-- Appending one value under a key, as ParseQuery does for each parsed
pair (url.Values appends to the slice held in the map). -/
def valuesAdd (q : Values) (key value : String) : Values :=
  match q with
  | [] => [(key, [value])]
  | kv :: rest =>
      if kv.1 = key then (kv.1, kv.2 ++ [value]) :: rest
      else kv :: valuesAdd rest key value

/-- Values.Set: replace every value stored under the key by the single
given value (url.Values Set assigns a one-element slice). -/
def valuesSet (q : Values) (key value : String) : Values :=
  q.filter (fun kv => kv.1 ≠ key) ++ [(key, [value])]

/-- Splitting a raw query on the ampersand separator. -/
def splitAmp (s : List Char) : List (List Char) :=
  match s with
  | [] => [[]]
  | '&' :: rest => [] :: splitAmp rest
  | c :: rest =>
      match splitAmp rest with
      | seg :: segs => (c :: seg) :: segs
      | [] => [[c]]

/-- Splitting one query segment at the first equals sign: the key is
what precedes it, the value what follows (empty when absent). -/
def cutEq (s : List Char) : List Char × List Char :=
  match s with
  | [] => ([], [])
  | '=' :: rest => ([], rest)
  | c :: rest =>
      let (k, v) := cutEq rest
      (c :: k, v)

/-- ParseQuery as url.URL.Query uses it: split the raw query on
ampersands, split each segment at its first equals sign, unescape key
and value, and accumulate; empty segments and segments whose unescaping
fails are skipped (Query discards the error ParseQuery reports for
them). -/
def parseQuery (rawQuery : String) : Values :=
  (splitAmp rawQuery.data).foldl
    (fun q seg =>
      if seg = [] then q
      else
        let (k, v) := cutEq seg
        match queryUnescape k, queryUnescape v with
        | some k, some v => valuesAdd q (String.mk k) (String.mk v)
        | _, _ => q)
    []

/-- Lexicographic comparison of character lists by code point, the
order Go string comparison induces (bytewise over UTF-8, which agrees
with code-point order). -/
def listCharLE : List Char → List Char → Bool
  | [], _ => true
  | _ :: _, [] => false
  | a :: as, b :: bs =>
      if a.toNat < b.toNat then true
      else if b.toNat < a.toNat then false
      else listCharLE as bs

/-- Ordering of value entries by key, the order sort.Strings gives the
keys in url.Values.Encode. -/
def keyLE (a b : String × List String) : Prop :=
  listCharLE a.1.data b.1.data = true

instance : DecidableRel keyLE := fun a b =>
  inferInstanceAs (Decidable (_ = true))

/-- Order in which url.Values.Encode emits the entries: sorted by key
(sort.Strings over the collected keys). -/
def encodeOrder (q : Values) : Values :=
  List.insertionSort keyLE q

/-- Values.Encode, as net/url: sort the keys, then emit
escapedKey=escapedValue for every value of every key, joined by
ampersands. -/
def valuesEncode (q : Values) : String :=
  String.intercalate "&"
    ((encodeOrder q).flatMap
      fun kv => kv.2.map fun v => queryEscape kv.1 ++ "=" ++ queryEscape v)

/-- Go string order, stated on the character lists. -/
def strLE (a b : String) : Prop := listCharLE a.data b.data = true

/-- LastHTTPResponse from pagination.go lines 20 to 24: the effective
request URL, the response headers and the decoded (or raw) body. -/
structure LastHTTPResponse where
  url : URL
  header : List (String × List String)
  body : GoVal

/-- Zero value of LastHTTPResponse, what Go denotes by the empty
composite literal of that type. -/
def LastHTTPResponse.empty : LastHTTPResponse := ⟨URL.empty, [], .nil⟩

/-- Header.Get: the first value stored under the (canonical) key, or the
empty string. Header names are kept in canonical MIME form, as net/http
stores them. -/
def headerGet (h : List (String × List String)) (key : String) : String :=
  match h.find? (fun kv => kv.1 = key) with
  | some kv => kv.2.headD ""
  | none => ""

/-- HTTPRequest models the part of http.Request the core reads: the URL
the request was made to. -/
structure HTTPRequest where
  url : URL

/-- HTTPResponse models the part of http.Response the core reads: the
originating request, the headers, and the outcome of reading the body
stream to the end (reading can fail with an I/O error). -/
structure HTTPResponse where
  request : HTTPRequest
  header : List (String × List String)
  body : Except Err (List Nat)

/-- RememberHTTPResponse from pagination.go lines 29 to 52: read the
whole body; on read failure return the zero snapshot and the error; if
the Content-Type header is exactly application/json, parse the bytes as
JSON (parse failure returns the zero snapshot and the error), otherwise
keep the raw bytes; on success capture the request URL, the headers and
the body. JSON decoding mechanics live in encoding/json, outside this
core, so the parser is a parameter. -/
def RememberHTTPResponse (jsonUnmarshal : List Nat → Except Err GoVal)
    (resp : HTTPResponse) : LastHTTPResponse × Option Err :=
  match resp.body with
  | .error e => (LastHTTPResponse.empty, some e)
  | .ok rawBody =>
      if headerGet resp.header "Content-Type" = "application/json" then
        match jsonUnmarshal rawBody with
        | .error e => (LastHTTPResponse.empty, some e)
        | .ok parsedBody =>
            ({ url := resp.request.url, header := resp.header, body := parsedBody }, none)
      else
        ({ url := resp.request.url, header := resp.header, body := .bytes rawBody }, none)

/-- Lowercasing of one ASCII letter. -/
def asciiLower (c : Char) : Char :=
  if 'A' ≤ c ∧ c ≤ 'Z' then Char.ofNat (c.toNat + 32) else c

/-- Case-insensitive string equality, as strings.EqualFold behaves on
the ASCII field names mapstructure compares. -/
def equalFold (a b : String) : Bool :=
  a.data.map asciiLower = b.data.map asciiLower

/-- Field lookup as mapstructure resolves a struct field name against
the keys of a decoded map: an exact match first, then the first
case-insensitive match. -/
def msLookup (fields : List (String × GoVal)) (name : String) : Option GoVal :=
  match fields.find? (fun kv => kv.1 = name) with
  | some kv => some kv.2
  | none =>
      match fields.find? (fun kv => equalFold kv.1 name) with
      | some kv => some kv.2
      | none => none

/-- Decoding of a Go interface value into a field of type pointer to
string, as mapstructure does: nil input leaves the pointer nil, a
string allocates it, anything else is a type error. -/
def msDecodeOptString : GoVal → Except Err (Option String)
  | .nil => .ok none
  | .str s => .ok (some s)
  | _ => .error "expected type string"

/-- Decoding of a Go interface value into the inner struct holding the
optional next field, as mapstructure does for the links field: nil input
leaves the struct at its zero value, a map is matched against the field
named next (absent means the zero value), anything else is a type
error. -/
def msDecodeLinks (v : GoVal) : Except Err (Option String) :=
  match v with
  | .nil => .ok none
  | .map fields =>
      match msLookup fields "next" with
      | none => .ok none
      | some w => msDecodeOptString w
  | _ => .error "expected a map"

/-- Decoding of the response body into the anonymous response struct of
LinkedPage.NextPageURL (a struct whose links field holds an optional
next string), as mapstructure.Decode does: nil input leaves everything
at its zero value, a map is matched against the field named links
(absent means the zero value), anything else is a type error. The
result is the final value of the next pointer. -/
def msDecodeResponse (body : GoVal) : Except Err (Option String) :=
  match body with
  | .nil => .ok none
  | .map fields =>
      match msLookup fields "links" with
      | none => .ok none
      | some v => msDecodeLinks v
  | _ => .error "expected a map"

/-- SinglePage.NextPageURL from pagination.go lines 79 to 81: always the
empty string and no error. -/
def SinglePage.NextPageURL (current : LastHTTPResponse) : Except Err String :=
  .ok ""

/-- LinkedPage.NextPageURL from pagination.go lines 87 to 105: decode
the body into the response shape; a decode error is returned as is; a
nil next pointer yields the empty string; otherwise the pointed-to
string. -/
def LinkedPage.NextPageURL (current : LastHTTPResponse) : Except Err String :=
  match msDecodeResponse current.body with
  | .error e => .error e
  | .ok none => .ok ""
  | .ok (some next) => .ok next

/-- MarkerPage.NextPageURL from pagination.go lines 116 to 129: invoke
the captured lastMark extractor on the page itself; propagate its error;
on success parse the stored request URL query, set the marker parameter
to the extracted value, re-encode, and render the URL. The extractor is
only ever applied to the page holding it, so the embedding carries the
value lastMark returns for this page rather than the function (the Page
type occurs negatively in the function type, so it cannot be stored). -/
def MarkerPage.NextPageURL (current : LastHTTPResponse)
    (lastMark : Except Err String) : Except Err String :=
  match lastMark with
  | .error e => .error e
  | .ok mark =>
      let q := valuesSet (parseQuery current.url.rawQuery) "marker" mark
      .ok (URL.render { current.url with rawQuery := valuesEncode q })

/-- Page from pagination.go lines 68 to 73, as the closed sum of the
three variants that implement it in this file. -/
inductive Page where
  | singlePage (current : LastHTTPResponse)
  | linkedPage (current : LastHTTPResponse)
  | markerPage (current : LastHTTPResponse) (lastMark : Except Err String)

/-- Interface dispatch of NextPageURL over the Page variants. -/
def Page.NextPageURL : Page → Except Err String
  | .singlePage current => SinglePage.NextPageURL current
  | .linkedPage current => LinkedPage.NextPageURL current
  | .markerPage current lastMark => MarkerPage.NextPageURL current lastMark

/-- Pager from pagination.go lines 132 to 138. The fetch collaborator
may be a stateful closure (NewSinglePager captures a mutable flag), so
the embedding threads an explicit closure-state of type sigma through
it; a stateless fetch uses Unit. -/
structure Pager (σ : Type) where
  initialURL : String
  fetchNextPage : σ → String → Except Err Page × σ
  countPage : Page → Except Err Int

/-- Outcome of an EachPage run: normal nil return, an error return, or
fuel exhaustion (the Go loop has no iteration bound, so the embedding
is indexed by fuel; a fuel outcome means the run was cut short, never
that EachPage returned). -/
inductive EachOutcome where
  | ok
  | err (e : Err)
  | fuel
deriving DecidableEq, Repr

/-- Observable trace of an EachPage run: the outcome, the final fetch
closure-state, the pages passed to the handler in order, and the URLs
passed to fetchNextPage in order. -/
structure EachResult (σ : Type) where
  outcome : EachOutcome
  state : σ
  handled : List Page
  fetched : List String

/-- One EachPage loop from pagination.go lines 229 to 261, indexed by
fuel: fetch the current page (an error aborts), count it (an error
aborts, a zero count returns nil before the handler runs), hand it to
the handler (an error aborts, a false return stops with nil), then ask
it for the next URL (an error aborts, an empty URL returns nil) and
loop. -/
def eachPageLoop (p : Pager σ) (handler : Page → Except Err Bool) :
    Nat → σ → String → EachResult σ
  | 0, s, _ => ⟨.fuel, s, [], []⟩
  | fuel + 1, s, currentURL =>
      match p.fetchNextPage s currentURL with
      | (.error e, s₁) => ⟨.err e, s₁, [], [currentURL]⟩
      | (.ok currentPage, s₁) =>
          match p.countPage currentPage with
          | .error e => ⟨.err e, s₁, [], [currentURL]⟩
          | .ok count =>
              if count = 0 then ⟨.ok, s₁, [], [currentURL]⟩
              else
                match handler currentPage with
                | .error e => ⟨.err e, s₁, [currentPage], [currentURL]⟩
                | .ok ok =>
                    if !ok then ⟨.ok, s₁, [currentPage], [currentURL]⟩
                    else
                      match currentPage.NextPageURL with
                      | .error e => ⟨.err e, s₁, [currentPage], [currentURL]⟩
                      | .ok nextURL =>
                          if nextURL = "" then ⟨.ok, s₁, [currentPage], [currentURL]⟩
                          else
                            let r := eachPageLoop p handler fuel s₁ nextURL
                            ⟨r.outcome, r.state, currentPage :: r.handled,
                              currentURL :: r.fetched⟩

/-- Pager.EachPage: run the loop from initialURL with the given fuel and
starting closure-state. -/
def Pager.EachPage (p : Pager σ) (handler : Page → Except Err Bool)
    (fuel : Nat) (s : σ) : EachResult σ :=
  eachPageLoop p handler fuel s p.initialURL

/-- Chaining a transport response through RememberHTTPResponse the way
the linked and marker fetch closures do: a request error or a remember
error aborts, otherwise the snapshot is handed on. -/
def fetchSnapshot (transport : String → Except Err HTTPResponse)
    (jsonUnmarshal : List Nat → Except Err GoVal) (url : String) :
    Except Err LastHTTPResponse :=
  match transport url with
  | .error e => .error e
  | .ok resp =>
      match RememberHTTPResponse jsonUnmarshal resp with
      | (_, some e) => .error e
      | (cp, none) => .ok cp

/-- NewPager from pagination.go lines 142 to 148: a manually configured
pager wired from the given pieces; the caller-supplied fetch closure
may carry state of any type. -/
def NewPager (initialURL : String) (fetchNextPage : σ → String → Except Err Page × σ)
    (countPage : Page → Except Err Int) : Pager σ :=
  ⟨initialURL, fetchNextPage, countPage⟩

/-- NewSinglePager from pagination.go lines 152 to 176: the fetch
closure captures a consumed flag, initially false; while unconsumed it
sets the flag, performs the real request against onlyURL (ignoring its
URL argument) and wraps the snapshot as a SinglePage; once consumed it
returns ErrPageNotAvailable. The initial URL is empty. The transport
collaborator (perigee request plus client) and the JSON parser are
parameters. -/
def NewSinglePager (transport : String → Except Err HTTPResponse)
    (jsonUnmarshal : List Nat → Except Err GoVal) (onlyURL : String)
    (countPage : Page → Except Err Int) : Pager Bool :=
  { initialURL := ""
    fetchNextPage := fun consumed _ =>
      if !consumed then
        match fetchSnapshot transport jsonUnmarshal onlyURL with
        | .error e => (.error e, true)
        | .ok cp => (.ok (.singlePage cp), true)
      else (.error ErrPageNotAvailable, true)
    countPage := countPage }

/-- NewLinkedPager from pagination.go lines 179 to 199: a stateless
fetch closure that requests the given URL and wraps the snapshot as a
LinkedPage. -/
def NewLinkedPager (transport : String → Except Err HTTPResponse)
    (jsonUnmarshal : List Nat → Except Err GoVal) (initialURL : String)
    (countPage : Page → Except Err Int) : Pager Unit :=
  { initialURL := initialURL
    fetchNextPage := fun s url =>
      match fetchSnapshot transport jsonUnmarshal url with
      | .error e => (.error e, s)
      | .ok cp => (.ok (.linkedPage cp), s)
    countPage := countPage }

/-- NewMarkerPager from pagination.go lines 203 to 225: a stateless
fetch closure that requests the given URL and wraps the snapshot as a
MarkerPage carrying the lastMark extractor. The extractor is applied to
the very page that carries it, so the embedding stores its value on
that snapshot (see MarkerPage.NextPageURL); lastMark is modelled as a
function of the snapshot the page wraps. -/
def NewMarkerPager (transport : String → Except Err HTTPResponse)
    (jsonUnmarshal : List Nat → Except Err GoVal) (initialURL : String)
    (lastMark : LastHTTPResponse → Except Err String)
    (countPage : Page → Except Err Int) : Pager Unit :=
  { initialURL := initialURL
    fetchNextPage := fun s url =>
      match fetchSnapshot transport jsonUnmarshal url with
      | .error e => (.error e, s)
      | .ok last => (.ok (.markerPage last (lastMark last)), s)
    countPage := countPage }

/-! Concrete fixtures used by witnesses and counterexamples. -/

/-- Fixture pager whose fetch always yields an empty single page and
whose count is always zero. -/
def zeroCountPager : Pager Unit :=
  ⟨"https://first", fun s _ => (.ok (.singlePage LastHTTPResponse.empty), s), fun _ => .ok 0⟩

/-- Fixture snapshot whose body is a bare string, so the linked decode
of it fails. -/
def strBodySnapshot : LastHTTPResponse := ⟨URL.empty, [], .str "no object here"⟩

/-- Fixture pager whose fetch always yields a linked page with a bad
body and whose count is always five. -/
def badLinkPager : Pager Unit :=
  ⟨"https://first", fun s _ => (.ok (.linkedPage strBodySnapshot), s), fun _ => .ok 5⟩

/-- Fixture pager whose count is always minus three. -/
def negCountPager : Pager Unit :=
  ⟨"https://first", fun s _ => (.ok (.singlePage LastHTTPResponse.empty), s), fun _ => .ok (-3)⟩

/-- Fixture transport answering every URL with a bodyless response
carrying no headers. -/
def plainTransport : String → Except Err HTTPResponse :=
  fun _ => .ok ⟨⟨URL.empty⟩, [], .ok []⟩

/-- Fixture JSON parser that always fails. -/
def failParse : List Nat → Except Err GoVal := fun _ => .error "invalid json"

/-- Fixture JSON parser that always yields null. -/
def nullParse : List Nat → Except Err GoVal := fun _ => .ok .nil

/-- Fixture single pager built over the plain transport. -/
def fixtureSinglePager : Pager Bool :=
  NewSinglePager plainTransport nullParse "https://only" (fun _ => .ok 1)

/-- Fixture request URL of the marker examples. -/
def itemsURL : URL := ⟨"https", "api.example.com", "/items", "limit=10", ""⟩

/-- Fixture response whose content type is JSON and whose body read
succeeds. -/
def jsonResponse : HTTPResponse :=
  ⟨⟨itemsURL⟩, [("Content-Type", ["application/json"])], .ok [110, 117, 108, 108]⟩

/-- Fixture pager whose fetch always yields an empty single page and
whose count is always seven. -/
def singleFetchPager : Pager Unit :=
  ⟨"https://u0", fun s _ => (.ok (.singlePage LastHTTPResponse.empty), s), fun _ => .ok 7⟩

/-- Fixture body holding a links object with the given next value. -/
def linksBody (next : GoVal) : GoVal := .map [("links", .map [("next", next)])]

/-! Helper lemmas. -/

theorem listCharLE_total : ∀ a b : List Char, listCharLE a b = true ∨ listCharLE b a = true
  | [], _ => Or.inl rfl
  | _ :: _, [] => Or.inr rfl
  | a :: as, b :: bs => by
      by_cases h1 : a.toNat < b.toNat
      · exact Or.inl (by simp [listCharLE, h1])
      · by_cases h2 : b.toNat < a.toNat
        · exact Or.inr (by simp [listCharLE, h2])
        · rcases listCharLE_total as bs with h | h
          · exact Or.inl (by simp [listCharLE, h1, h2, h])
          · exact Or.inr (by simp [listCharLE, h1, h2, h])

theorem listCharLE_trans : ∀ a b c : List Char,
    listCharLE a b = true → listCharLE b c = true → listCharLE a c = true
  | [], _, _, _, _ => rfl
  | _ :: _, [], _, h1, _ => by simp [listCharLE] at h1
  | _ :: _, _ :: _, [], _, h2 => by simp [listCharLE] at h2
  | a :: as, b :: bs, c :: cs, h1, h2 => by
      simp only [listCharLE] at h1 h2 ⊢
      by_cases hab : a.toNat < b.toNat
      · by_cases hbc : b.toNat < c.toNat
        · simp [show a.toNat < c.toNat from by omega]
        · by_cases hcb : c.toNat < b.toNat
          · simp [hbc, hcb] at h2
          · simp [show a.toNat < c.toNat from by omega]
      · by_cases hba : b.toNat < a.toNat
        · simp [hab, hba] at h1
        · simp only [if_neg hab, if_neg hba] at h1
          by_cases hbc : b.toNat < c.toNat
          · simp [show a.toNat < c.toNat from by omega]
          · by_cases hcb : c.toNat < b.toNat
            · simp [hbc, hcb] at h2
            · simp only [if_neg hbc, if_neg hcb] at h2
              simp only [if_neg (show ¬ a.toNat < c.toNat from by omega),
                if_neg (show ¬ c.toNat < a.toNat from by omega)]
              exact listCharLE_trans as bs cs h1 h2

instance : IsTotal (String × List String) keyLE :=
  ⟨fun a b => listCharLE_total a.1.data b.1.data⟩

instance : IsTrans (String × List String) keyLE :=
  ⟨fun a b c => listCharLE_trans a.1.data b.1.data c.1.data⟩

/-- Keys come out of encodeOrder sorted in Go string order. -/
theorem encodeOrder_keys_sorted (q : Values) :
    List.Sorted strLE ((encodeOrder q).map Prod.fst) :=
  List.Pairwise.map Prod.fst (fun _ _ hab => hab) (List.sorted_insertionSort keyLE q)

/-- No entry with the removed key survives the filter inside
valuesSet. -/
theorem find?_filter_removed (q : Values) (k : String) :
    (q.filter (fun kv => kv.1 ≠ k)).find? (fun kv => kv.1 = k) = none := by
  induction q with
  | nil => rfl
  | cons kv rest ih =>
      by_cases h : kv.1 = k
      · simp [List.filter, h, ih]
      · simp [List.filter, List.find?, h, ih]

/-- Values.Set stores exactly the one given value under the key. -/
theorem valuesGetAll_set_self (q : Values) (k v : String) :
    valuesGetAll (valuesSet q k v) k = [v] := by
  unfold valuesGetAll valuesSet
  rw [List.find?_append, find?_filter_removed]
  simp [List.find?]

/-- Filtering away the entries of one key does not change lookups of a
different key. -/
theorem find?_filter_other (q : Values) (k k2 : String) (h : k2 ≠ k) :
    (q.filter (fun kv => kv.1 ≠ k)).find? (fun kv => kv.1 = k2)
      = q.find? (fun kv => kv.1 = k2) := by
  induction q with
  | nil => rfl
  | cons kv rest ih =>
      simp only [decide_not] at ih ⊢
      simp only [List.filter_cons, decide_not]
      by_cases hk : kv.1 = k
      · have d2 : (decide (kv.1 = k2)) = false := decide_eq_false (fun hh => h (hh ▸ hk))
        rw [if_neg (by simp [hk])]
        simp only [List.find?_cons, d2]
        exact ih
      · rw [if_pos (by simp [hk])]
        by_cases hk2 : kv.1 = k2
        · have d2 : (decide (kv.1 = k2)) = true := by simp [hk2]
          simp only [List.find?_cons, d2]
        · have d2 : (decide (kv.1 = k2)) = false := by simp [hk2]
          simp only [List.find?_cons, d2]
          exact ih

/-- Values.Set leaves every other key untouched. -/
theorem valuesGetAll_set_ne (q : Values) (k k2 v : String) (h : k2 ≠ k) :
    valuesGetAll (valuesSet q k v) k2 = valuesGetAll q k2 := by
  have hkk2 : ¬ (k = k2) := fun hh => h hh.symm
  unfold valuesGetAll valuesSet
  rw [List.find?_append, find?_filter_other q k k2 h]
  have h2 : List.find? (fun kv => kv.1 = k2) [(k, [v])] = none := by
    simp [List.find?, hkk2]
  rw [h2]
  cases q.find? (fun kv => kv.1 = k2) <;> rfl

/-- Values.Set leaves exactly one entry under the written key. -/
theorem countP_set_key (q : Values) (k m : String) :
    List.countP (fun kv => kv.1 = k) (valuesSet q k m) = 1 := by
  unfold valuesSet
  rw [List.countP_append]
  have h0 : List.countP (fun kv => kv.1 = k) (q.filter fun kv => kv.1 ≠ k) = 0 := by
    rw [List.countP_filter]
    apply List.countP_eq_zero.2
    intro a _
    by_cases hk : a.1 = k <;> simp [hk]
  rw [h0]
  simp [List.countP_cons]

/-! Claim theorems. -/

/-- Claim C1: whenever, at any point of an EachPage traversal, the
fetch of the current page succeeds and countPage returns zero with no
error, the traversal terminates right there with a nil error, the
handler is never invoked for that page (nothing is handled from this
point on) and no further page is fetched. Every position of a
traversal is a call of eachPageLoop with some fuel, closure-state and
current URL, so the statement covers any point of any traversal. -/
theorem eachPage_zero_count {σ : Type} (p : Pager σ)
    (handler : Page → Except Err Bool) (fuel : Nat) (s s₁ : σ) (u : String) (pg : Page)
    (hf : p.fetchNextPage s u = (.ok pg, s₁))
    (hc : p.countPage pg = .ok 0) :
    eachPageLoop p handler (fuel + 1) s u = ⟨.ok, s₁, [], [u]⟩ := by
  simp [eachPageLoop, hf, hc]

/-- Witness for the C1 theorem at a concrete pager. -/
theorem eachPage_zero_count_witness :
    zeroCountPager.fetchNextPage () "https://first"
      = (.ok (.singlePage LastHTTPResponse.empty), ())
    ∧ zeroCountPager.countPage (.singlePage LastHTTPResponse.empty) = .ok 0
    ∧ eachPageLoop zeroCountPager (fun _ => .ok true) 1 () "https://first"
        = ⟨.ok, (), [], ["https://first"]⟩ :=
  ⟨rfl, rfl, eachPage_zero_count zeroCountPager (fun _ => .ok true) 0 () () "https://first"
    (.singlePage LastHTTPResponse.empty) rfl rfl⟩

/-- Claim C2: whenever the handler returns false with a nil error for a
page whose count was non-zero, the traversal terminates immediately
with a nil error: that page is the only one handled from this point on
and no further page is fetched. The page is arbitrary and nothing is
assumed about its NextPageURL, which shows the result does not depend
on it (it is never consulted), even when it would fail or name a next
page. -/
theorem eachPage_handler_false_stops {σ : Type} (p : Pager σ)
    (handler : Page → Except Err Bool) (fuel : Nat) (s s₁ : σ) (u : String)
    (pg : Page) (count : Int)
    (hf : p.fetchNextPage s u = (.ok pg, s₁))
    (hc : p.countPage pg = .ok count) (hcount : count ≠ 0)
    (hh : handler pg = .ok false) :
    eachPageLoop p handler (fuel + 1) s u = ⟨.ok, s₁, [pg], [u]⟩ := by
  simp [eachPageLoop, hf, hc, hcount, hh]

/-- Witness for the C2 theorem: the fetched page is a linked page whose
NextPageURL would fail, and the traversal still returns nil right after
the handler declines. -/
theorem eachPage_handler_false_stops_witness :
    badLinkPager.countPage (.linkedPage strBodySnapshot) = .ok 5
    ∧ ((5 : Int) ≠ 0)
    ∧ Page.NextPageURL (.linkedPage strBodySnapshot) = .error "expected a map"
    ∧ eachPageLoop badLinkPager (fun _ => .ok false) 3 () "https://first"
        = ⟨.ok, (), [.linkedPage strBodySnapshot], ["https://first"]⟩ :=
  ⟨rfl, by decide, rfl,
    eachPage_handler_false_stops badLinkPager (fun _ => .ok false) 2 () () "https://first"
      (.linkedPage strBodySnapshot) 5 rfl rfl (by decide) rfl⟩

/-- Claim C9: a successfully counted page is withheld from the handler
only when its count is exactly zero; any other count, negative counts
included, makes the page the next one handed to the handler. -/
theorem eachPage_nonzero_count_handles {σ : Type} (p : Pager σ)
    (handler : Page → Except Err Bool) (fuel : Nat) (s s₁ : σ) (u : String)
    (pg : Page) (count : Int)
    (hf : p.fetchNextPage s u = (.ok pg, s₁))
    (hc : p.countPage pg = .ok count) (hcount : count ≠ 0) :
    ∃ rest, (eachPageLoop p handler (fuel + 1) s u).handled = pg :: rest := by
  rcases hh : handler pg with e | b
  · exact ⟨[], by simp [eachPageLoop, hf, hc, hcount, hh]⟩
  · cases b
    · exact ⟨[], by simp [eachPageLoop, hf, hc, hcount, hh]⟩
    · rcases hn : pg.NextPageURL with e | nextURL
      · exact ⟨[], by simp [eachPageLoop, hf, hc, hcount, hh, hn]⟩
      · by_cases hz : nextURL = ""
        · exact ⟨[], by simp [eachPageLoop, hf, hc, hcount, hh, hn, hz]⟩
        · exact ⟨(eachPageLoop p handler fuel s₁ nextURL).handled,
            by simp [eachPageLoop, hf, hc, hcount, hh, hn, hz]⟩

/-- Witness for the C9 theorem at a pager whose count is minus three. -/
theorem eachPage_nonzero_count_handles_witness :
    negCountPager.countPage (.singlePage LastHTTPResponse.empty) = .ok (-3)
    ∧ ((-3 : Int) ≠ 0)
    ∧ ∃ rest, (eachPageLoop negCountPager (fun _ => .ok true) 4 () "https://first").handled
        = Page.singlePage LastHTTPResponse.empty :: rest :=
  ⟨rfl, by decide,
    eachPage_nonzero_count_handles negCountPager (fun _ => .ok true) 3 () () "https://first"
      (.singlePage LastHTTPResponse.empty) (-3) rfl rfl (by decide)⟩

/-- Claim C8: SinglePage.NextPageURL always returns the empty string
with no error, and a traversal all of whose fetched pages are
SinglePage values hands at most one page to the handler. -/
theorem singlePage_eachPage_at_most_once {σ : Type} (p : Pager σ)
    (handler : Page → Except Err Bool) (fuel : Nat) (s : σ) (u : String)
    (hsingle : ∀ s u pg s₁, p.fetchNextPage s u = (.ok pg, s₁) → ∃ cp, pg = .singlePage cp) :
    (∀ cp, SinglePage.NextPageURL cp = .ok "")
    ∧ (eachPageLoop p handler fuel s u).handled.length ≤ 1 := by
  refine ⟨fun _ => rfl, ?_⟩
  cases fuel with
  | zero => simp [eachPageLoop]
  | succ n =>
      rcases hf : p.fetchNextPage s u with ⟨res, s₁⟩
      rcases res with e | pg
      · simp [eachPageLoop, hf]
      · obtain ⟨cp, rfl⟩ := hsingle s u pg s₁ hf
        rcases hc : p.countPage (.singlePage cp) with e | count
        · simp [eachPageLoop, hf, hc]
        · by_cases h0 : count = 0
          · simp [eachPageLoop, hf, hc, h0]
          · rcases hh : handler (.singlePage cp) with e | b
            · simp [eachPageLoop, hf, hc, h0, hh]
            · cases b
              · simp [eachPageLoop, hf, hc, h0, hh]
              · simp [eachPageLoop, hf, hc, h0, hh, Page.NextPageURL,
                  SinglePage.NextPageURL]

/-- Witness for the C8 theorem at a concrete single-page-only pager. -/
theorem singlePage_eachPage_at_most_once_witness :
    (eachPageLoop singleFetchPager (fun _ => .ok true) 5 () "https://u0").handled.length ≤ 1 :=
  (singlePage_eachPage_at_most_once singleFetchPager (fun _ => .ok true) 5 () "https://u0"
    (fun s u pg s₁ hf => ⟨LastHTTPResponse.empty, by
      injection hf with h1 h2
      injection h1 with h3
      exact h3.symm⟩)).2

/-- Claim C6: the fetch closure of a NewSinglePager pager, once the
consumed flag is set, answers ErrPageNotAvailable whatever its URL
argument is and whatever the transport would answer (so no network
request is involved); while the flag is unset it performs the real
request against onlyURL and wraps the snapshot as a SinglePage. -/
theorem newSinglePager_fetch_once (jsonUnmarshal : List Nat → Except Err GoVal)
    (countPage : Page → Except Err Int) (onlyURL : String) :
    (∀ transport u,
      (NewSinglePager transport jsonUnmarshal onlyURL countPage).fetchNextPage true u
        = (.error ErrPageNotAvailable, true))
    ∧ (∀ transport transport₂ u u₂,
      (NewSinglePager transport jsonUnmarshal onlyURL countPage).fetchNextPage true u
        = (NewSinglePager transport₂ jsonUnmarshal onlyURL countPage).fetchNextPage true u₂)
    ∧ (∀ transport u resp cp, transport onlyURL = .ok resp →
      RememberHTTPResponse jsonUnmarshal resp = (cp, none) →
      (NewSinglePager transport jsonUnmarshal onlyURL countPage).fetchNextPage false u
        = (.ok (.singlePage cp), true)) := by
  refine ⟨fun transport u => rfl, fun transport transport₂ u u₂ => rfl, ?_⟩
  intro transport u resp cp h1 h2
  simp [NewSinglePager, fetchSnapshot, h1, h2]

/-- Witness for the C6 theorem at a concrete transport. -/
theorem newSinglePager_fetch_once_witness :
    (NewSinglePager plainTransport nullParse "https://only" (fun _ => .ok 1)).fetchNextPage
        true "ignored" = (.error ErrPageNotAvailable, true)
    ∧ (NewSinglePager plainTransport nullParse "https://only" (fun _ => .ok 1)).fetchNextPage
        false "ignored" = (.ok (.singlePage ⟨URL.empty, [], .bytes []⟩), true) :=
  ⟨(newSinglePager_fetch_once nullParse (fun _ => .ok 1) "https://only").1
      plainTransport "ignored",
    (newSinglePager_fetch_once nullParse (fun _ => .ok 1) "https://only").2.2
      plainTransport "ignored" ⟨⟨URL.empty⟩, [], .ok []⟩ ⟨URL.empty, [], .bytes []⟩ rfl rfl⟩

/-- Claim C7: RememberHTTPResponse parses the body as JSON exactly when
the Content-Type header equals application/json, storing the raw bytes
verbatim otherwise; a body-read failure or a JSON parse failure yields
the error together with the zero snapshot, so no partially populated
snapshot accompanies an error. -/
theorem rememberHTTPResponse_cases (jsonUnmarshal : List Nat → Except Err GoVal)
    (resp : HTTPResponse) :
    (∀ e, resp.body = .error e →
      RememberHTTPResponse jsonUnmarshal resp = (LastHTTPResponse.empty, some e))
    ∧ (∀ rawBody e, resp.body = .ok rawBody →
      headerGet resp.header "Content-Type" = "application/json" →
      jsonUnmarshal rawBody = .error e →
      RememberHTTPResponse jsonUnmarshal resp = (LastHTTPResponse.empty, some e))
    ∧ (∀ rawBody parsedBody, resp.body = .ok rawBody →
      headerGet resp.header "Content-Type" = "application/json" →
      jsonUnmarshal rawBody = .ok parsedBody →
      RememberHTTPResponse jsonUnmarshal resp
        = (⟨resp.request.url, resp.header, parsedBody⟩, none))
    ∧ (∀ rawBody, resp.body = .ok rawBody →
      headerGet resp.header "Content-Type" ≠ "application/json" →
      RememberHTTPResponse jsonUnmarshal resp
        = (⟨resp.request.url, resp.header, .bytes rawBody⟩, none)) := by
  refine ⟨?_, ?_, ?_, ?_⟩
  · intro e he; simp [RememberHTTPResponse, he]
  · intro rawBody e hb hct hp; simp [RememberHTTPResponse, hb, hct, hp]
  · intro rawBody parsedBody hb hct hp; simp [RememberHTTPResponse, hb, hct, hp]
  · intro rawBody hb hct; simp [RememberHTTPResponse, hb, hct]

/-- Witness for the C7 theorem: a failing parse yields the zero
snapshot with the error, a succeeding parse yields the populated
snapshot with no error. -/
theorem rememberHTTPResponse_cases_witness :
    RememberHTTPResponse failParse jsonResponse = (LastHTTPResponse.empty, some "invalid json")
    ∧ RememberHTTPResponse nullParse jsonResponse
        = (⟨itemsURL, [("Content-Type", ["application/json"])], .nil⟩, none) :=
  ⟨(rememberHTTPResponse_cases failParse jsonResponse).2.1
      [110, 117, 108, 108] "invalid json" rfl rfl rfl,
    (rememberHTTPResponse_cases nullParse jsonResponse).2.2.1
      [110, 117, 108, 108] .nil rfl rfl rfl⟩

/-- Claim C3 counterexample: a body that is a JSON object with no links
member at all makes LinkedPage.NextPageURL return the empty string with
no error, where the claim expects a decode error. -/
theorem linkedPage_missing_links_not_error :
    LinkedPage.NextPageURL ⟨URL.empty, [], .map []⟩ = .ok "" := rfl

/-- Claim C3 amended: NextPageURL returns the exact string value of
links.next when present, and returns the empty string with no error
when the next field is absent or null; a body whose links object is
missing entirely likewise yields the empty string with no error (it is
treated as exhaustion, not as a decode error). -/
theorem linkedPage_nextPageURL_cases :
    (∀ u hd fields lnks s, msLookup fields "links" = some (.map lnks) →
      msLookup lnks "next" = some (.str s) →
      LinkedPage.NextPageURL ⟨u, hd, .map fields⟩ = .ok s)
    ∧ (∀ u hd fields lnks, msLookup fields "links" = some (.map lnks) →
      msLookup lnks "next" = none →
      LinkedPage.NextPageURL ⟨u, hd, .map fields⟩ = .ok "")
    ∧ (∀ u hd fields lnks, msLookup fields "links" = some (.map lnks) →
      msLookup lnks "next" = some .nil →
      LinkedPage.NextPageURL ⟨u, hd, .map fields⟩ = .ok "")
    ∧ (∀ u hd fields, msLookup fields "links" = none →
      LinkedPage.NextPageURL ⟨u, hd, .map fields⟩ = .ok "") := by
  refine ⟨?_, ?_, ?_, ?_⟩
  · intro u hd fields lnks s h1 h2
    simp [LinkedPage.NextPageURL, msDecodeResponse, msDecodeLinks, msDecodeOptString, h1, h2]
  · intro u hd fields lnks h1 h2
    simp [LinkedPage.NextPageURL, msDecodeResponse, msDecodeLinks, msDecodeOptString, h1, h2]
  · intro u hd fields lnks h1 h2
    simp [LinkedPage.NextPageURL, msDecodeResponse, msDecodeLinks, msDecodeOptString, h1, h2]
  · intro u hd fields h1
    simp [LinkedPage.NextPageURL, msDecodeResponse, h1]

/-- Witness for the C3 amended theorem at concrete bodies. -/
theorem linkedPage_nextPageURL_cases_witness :
    LinkedPage.NextPageURL ⟨URL.empty, [], linksBody (.str "https://x/2")⟩ = .ok "https://x/2"
    ∧ LinkedPage.NextPageURL ⟨URL.empty, [], linksBody .nil⟩ = .ok ""
    ∧ LinkedPage.NextPageURL ⟨URL.empty, [], .map [("links", .map [])]⟩ = .ok ""
    ∧ LinkedPage.NextPageURL ⟨URL.empty, [], .map [("other", .nil)]⟩ = .ok "" :=
  ⟨linkedPage_nextPageURL_cases.1 URL.empty [] _ _ _ rfl rfl,
    linkedPage_nextPageURL_cases.2.2.1 URL.empty [] _ _ rfl rfl,
    linkedPage_nextPageURL_cases.2.1 URL.empty [] _ _ rfl rfl,
    linkedPage_nextPageURL_cases.2.2.2 URL.empty [] _ rfl⟩

/-- Claim C5 counterexample: a pager built by NewSinglePager does not
start fresh on a second EachPage invocation; the consumed flag captured
by its fetch closure persists, so the first invocation succeeds and the
second returns ErrPageNotAvailable. -/
theorem singlePager_second_eachPage_differs :
    (fixtureSinglePager.EachPage (fun _ => .ok true) 2 false).outcome = .ok
    ∧ (fixtureSinglePager.EachPage (fun _ => .ok true) 2
        (fixtureSinglePager.EachPage (fun _ => .ok true) 2 false).state).outcome
      = .err ErrPageNotAvailable :=
  ⟨rfl, rfl⟩

/-- Claim C5 amended: pagers whose fetch closure carries no state, as
built by NewLinkedPager, NewMarkerPager, and NewPager over a stateless
fetch, behave identically on a second EachPage invocation run from the
closure-state the first one left behind; the NewSinglePager consumed
flag is the one exception. -/
theorem stateless_pager_eachPage_reusable
    (transport : String → Except Err HTTPResponse)
    (jsonUnmarshal : List Nat → Except Err GoVal) (initialURL : String)
    (lastMark : LastHTTPResponse → Except Err String)
    (countPage : Page → Except Err Int) (handler : Page → Except Err Bool)
    (fuel : Nat) (fetch : Unit → String → Except Err Page × Unit) :
    ((NewLinkedPager transport jsonUnmarshal initialURL countPage).EachPage handler fuel
        ((NewLinkedPager transport jsonUnmarshal initialURL countPage).EachPage
          handler fuel ()).state
      = (NewLinkedPager transport jsonUnmarshal initialURL countPage).EachPage handler fuel ())
    ∧ ((NewMarkerPager transport jsonUnmarshal initialURL lastMark countPage).EachPage
          handler fuel
          ((NewMarkerPager transport jsonUnmarshal initialURL lastMark countPage).EachPage
            handler fuel ()).state
      = (NewMarkerPager transport jsonUnmarshal initialURL lastMark countPage).EachPage
          handler fuel ())
    ∧ ((NewPager initialURL fetch countPage).EachPage handler fuel
        ((NewPager initialURL fetch countPage).EachPage handler fuel ()).state
      = (NewPager initialURL fetch countPage).EachPage handler fuel ()) :=
  ⟨rfl, rfl, rfl⟩

/-- Claim C4: setting the marker on the example request URL yields
exactly the expected URL, both when no marker was present and when an
old marker value gets replaced; the written query always holds exactly
one marker entry, and in general the result is the stored URL rendered
with its query re-encoded around the upserted marker. -/
theorem markerPage_nextPageURL_upsert :
    MarkerPage.NextPageURL ⟨itemsURL, [], .nil⟩ (.ok "item-42")
      = .ok "https://api.example.com/items?limit=10&marker=item-42"
    ∧ MarkerPage.NextPageURL ⟨{itemsURL with rawQuery := "limit=10&marker=old"}, [], .nil⟩
        (.ok "item-42")
      = .ok "https://api.example.com/items?limit=10&marker=item-42"
    ∧ (∀ q m, List.countP (fun kv => kv.1 = "marker") (valuesSet q "marker" m) = 1)
    ∧ (∀ current mark, MarkerPage.NextPageURL current (.ok mark)
        = .ok (URL.render { current.url with
            rawQuery := valuesEncode (valuesSet (parseQuery current.url.rawQuery)
              "marker" mark) })) :=
  ⟨rfl, rfl, fun q m => countP_set_key q "marker" m, fun current mark => rfl⟩

/-- Claim C10: with a successful extractor, NextPageURL rewrites only
the query component: the result renders a URL whose scheme, host, path
and fragment are exactly those of the stored request URL; every key
other than marker keeps its parsed values, marker holds exactly the
extracted value, and the re-encoded query emits its keys in sorted
order whatever their order in the original URL. -/
theorem markerPage_nextPageURL_frame (current : LastHTTPResponse) (mark : String) :
    MarkerPage.NextPageURL current (.ok mark)
      = .ok (URL.render
          { scheme := current.url.scheme, host := current.url.host,
            path := current.url.path,
            rawQuery := valuesEncode (valuesSet (parseQuery current.url.rawQuery)
              "marker" mark),
            fragment := current.url.fragment })
    ∧ (∀ k, k ≠ "marker" →
        valuesGetAll (valuesSet (parseQuery current.url.rawQuery) "marker" mark) k
          = valuesGetAll (parseQuery current.url.rawQuery) k)
    ∧ valuesGetAll (valuesSet (parseQuery current.url.rawQuery) "marker" mark) "marker"
        = [mark]
    ∧ List.Sorted strLE
        ((encodeOrder (valuesSet (parseQuery current.url.rawQuery) "marker" mark)).map
          Prod.fst) :=
  ⟨rfl, fun k hk => valuesGetAll_set_ne _ "marker" k mark hk,
    valuesGetAll_set_self _ "marker" mark, encodeOrder_keys_sorted _⟩

/-- Witness for the C10 theorem on a concrete URL: the limit parameter
survives the marker upsert with its value intact. -/
theorem markerPage_nextPageURL_frame_witness :
    valuesGetAll (valuesSet (parseQuery "limit=10&marker=old") "marker" "item-42") "limit"
      = valuesGetAll (parseQuery "limit=10&marker=old") "limit"
    ∧ valuesGetAll (parseQuery "limit=10&marker=old") "limit" = ["10"] :=
  ⟨(markerPage_nextPageURL_frame
      ⟨⟨"https", "api.example.com", "/items", "limit=10&marker=old", ""⟩, [], .nil⟩
      "item-42").2.1 "limit" (by decide),
    by decide⟩
